import Mathlib

/-!
Shallow embedding of the RetailCore inventory-costing and credit-ledger engine.

Conventions of the embedding:
* JavaScript numbers are modelled as exact rationals (`ℚ`); the engine's
  arithmetic (sums, products, division in the weighted-average cost, and the
  `Math.round(x*100)/100` monetary rounding) is carried out on `ℚ`.
* Timestamps (`created_at`, `Date.now()`, `new Date(...).getTime()`) are
  modelled as integers; the services receive the ambient clock value `now`
  as an explicit argument (the source reads it from the environment).
* Randomly generated invoice numbers are passed in as an explicit argument.
* `throw new Error(msg)` inside a transaction is modelled as
  `Except.error msg`; the surrounding transaction rolls back, so an error
  leaves the state unchanged.
* Descriptive string fields that no service reads (product names, SKUs,
  barcodes, phone numbers, ...) are omitted from the record types; every
  field that any modelled function reads or writes is present.
-/

namespace RetailCore

/-- Payment methods, from `Sale.payment_method` in `database.ts`. -/
inductive PaymentMethod where
  | cash | credit | card | mixed
deriving DecidableEq

/-- Sale status, from `Sale.status` in `database.ts`. -/
inductive SaleStatus where
  | pending | completed | refunded | cancelled
deriving DecidableEq

/-- Ledger entry type, from `LedgerEntry.type` in `database.ts`.
Note the source's own comments on the labels: in `createKhataSale`,
"In the existing schema, 'credit' means customer owes (sale on credit)",
and in `recordKhataPayment`, "'debit' means customer paid". -/
inductive EntryType where
  | credit | debit | opening
deriving DecidableEq

/-- Stock movement type, from `StockMovement.type` in `database.ts`.
The source string literal for `ret` is `'return'` (a Lean keyword). -/
inductive MovementType where
  | purchase | sale | adjustment | ret | damage
deriving DecidableEq

/-- Product record, from `database.ts`. -/
structure Product where
  id : Int
  cost_price : ℚ
  selling_price : ℚ
  quantity : ℚ
  min_stock_level : ℚ
  wac_cost : ℚ
  is_active : Bool
  updated_at : Int
deriving DecidableEq

/-- Customer record, from `database.ts`. -/
structure Customer where
  id : Int
  credit_limit : ℚ
  credit_balance : ℚ
  is_active : Bool
  updated_at : Int
deriving DecidableEq

/-- Sale record, from `database.ts`. -/
structure Sale where
  id : Int
  invoice_number : String
  customer_id : Option Int
  user_id : Int
  subtotal : ℚ
  discount_amount : ℚ
  discount_percent : ℚ
  tax_amount : ℚ
  total : ℚ
  payment_method : PaymentMethod
  payment_received : ℚ
  change_amount : ℚ
  status : SaleStatus
  notes : Option String
  created_at : Int
deriving DecidableEq

/-- Sale line record, from `database.ts` (`SaleItem`). -/
structure SaleItem where
  id : Int
  sale_id : Int
  product_id : Int
  quantity : ℚ
  unit_price : ℚ
  cost_price : ℚ
  discount_amount : ℚ
  total : ℚ
  created_at : Int
deriving DecidableEq

/-- Ledger entry record, from `database.ts`. -/
structure LedgerEntry where
  id : Int
  customer_id : Int
  type : EntryType
  amount : ℚ
  balance : ℚ
  reference_id : Option Int
  reference_type : Option String
  description : String
  user_id : Int
  created_at : Int
deriving DecidableEq

/-- Stock movement record, from `database.ts`. -/
structure StockMovement where
  id : Int
  product_id : Int
  type : MovementType
  quantity : ℚ
  unit_cost : Option ℚ
  reference_id : Option Int
  reference_type : Option String
  notes : Option String
  user_id : Int
  created_at : Int
deriving DecidableEq

/-- JavaScript `Math.round` on rationals: round half toward positive infinity. -/
def jsRound (x : ℚ) : Int := ⌊x + 1 / 2⌋

/-- The implementation's monetary rounding `Math.round(x * 100) / 100`. -/
def round2 (x : ℚ) : ℚ := (jsRound (x * 100) : ℚ) / 100

/-- Helper to calculate Weighted Average Cost, from `calculateWAC` in the
database module (unnamed part, `index.ts`). -/
def calculateWAC (currentQuantity currentWAC newQuantity newCost : ℚ) : ℚ :=
  let totalQuantity := currentQuantity + newQuantity
  if totalQuantity = 0 then 0
  else ((currentQuantity * currentWAC) + (newQuantity * newCost)) / totalQuantity

/-- From `calculateNewWAC` in `inventoryService.ts`. -/
def calculateNewWAC (currentStock currentWAC newQuantity newCost : ℚ) : ℚ :=
  let totalStock := currentStock + newQuantity
  if totalStock ≤ 0 then 0
  else calculateWAC currentStock currentWAC newQuantity newCost

/-- From `StockInParams` in `inventoryService.ts`. -/
structure StockInParams where
  productId : Int
  quantity : ℚ
  unitCost : ℚ
  supplierId : Option Int
  userId : Int
  notes : Option String
deriving DecidableEq

/-- From `StockInResult` in `inventoryService.ts`. -/
structure StockInResult where
  success : Bool
  product : Product
  stockMovement : StockMovement
  previousStock : ℚ
  previousWAC : ℚ
  newStock : ℚ
  newWAC : ℚ
deriving DecidableEq

/-- Return shape of `performStockIn`. -/
structure StockInOutcome where
  updatedProducts : List Product
  result : StockInResult
deriving DecidableEq

/-- From `performStockIn` in `inventoryService.ts`. The only validation in
the source is the product-existence check; quantity and cost are not
validated. -/
def performStockIn (products : List Product) (params : StockInParams)
    (now : Int) : Except String StockInOutcome :=
  match products.find? (fun p => p.id == params.productId) with
  | none => .error ("Product with ID " ++ toString params.productId ++ " not found")
  | some product =>
    let previousStock := product.quantity
    let previousWAC := product.wac_cost
    let newStock := previousStock + params.quantity
    let newWAC := calculateNewWAC previousStock previousWAC params.quantity params.unitCost
    let updatedProduct : Product :=
      { product with
        quantity := newStock
        wac_cost := round2 newWAC
        cost_price := params.unitCost
        updated_at := now }
    let stockMovement : StockMovement :=
      { id := now
        product_id := params.productId
        type := .purchase
        quantity := params.quantity
        unit_cost := some params.unitCost
        reference_id := params.supplierId
        reference_type := some "PURCHASE"
        notes := params.notes
        user_id := params.userId
        created_at := now }
    .ok
      { updatedProducts := products.map fun p =>
          if p.id == params.productId then updatedProduct else p
        result :=
          { success := true
            product := updatedProduct
            stockMovement := stockMovement
            previousStock := previousStock
            previousWAC := previousWAC
            newStock := newStock
            newWAC := newWAC } }

/-- From `reduceStock` in `inventoryService.ts`. -/
def reduceStock (products : List Product) (productId : Int) (quantity : ℚ)
    (now : Int) : List Product :=
  products.map fun p =>
    if p.id == productId then
      { p with quantity := max 0 (p.quantity - quantity), updated_at := now }
    else p

/-- From `StockOutInput` in the product repository (unnamed part). -/
structure StockOutInput where
  product_id : Int
  quantity : ℚ
  type : MovementType
  reference_id : Option Int
  reference_type : Option String
  user_id : Int
  notes : Option String
deriving DecidableEq

/-- Return shape of `stockOut`. -/
structure StockOutOutcome where
  updatedProducts : List Product
  product : Product
  movement : StockMovement
deriving DecidableEq

/-- From `stockOut` in the product repository (unnamed part). The database
rows are modelled as the list `products`; the `UPDATE ... WHERE id = ?`
statement updates every row whose id matches. -/
def stockOut (products : List Product) (input : StockOutInput)
    (now : Int) : Except String StockOutOutcome :=
  match products.find? (fun p => p.id == input.product_id) with
  | none => .error "Product not found"
  | some product =>
    if product.quantity < input.quantity then
      .error "Insufficient stock"
    else
      let newQuantity := product.quantity - input.quantity
      let updatedProduct : Product :=
        { product with quantity := newQuantity, updated_at := now }
      let movement : StockMovement :=
        { id := now
          product_id := input.product_id
          type := input.type
          quantity := -input.quantity
          unit_cost := some product.wac_cost
          reference_id := input.reference_id
          reference_type := input.reference_type
          notes := input.notes
          user_id := input.user_id
          created_at := now }
      .ok
        { updatedProducts := products.map fun p =>
            if p.id == input.product_id then updatedProduct else p
          product := updatedProduct
          movement := movement }

/-- From `CartItem` in `salesService.ts`. -/
structure CartItem where
  product : Product
  quantity : ℚ
  unitPrice : ℚ
  discount : ℚ
deriving DecidableEq

/-- From `SaleParams` in `salesService.ts`. -/
structure SaleParams where
  customerId : Option Int
  userId : Int
  items : List CartItem
  discount : ℚ
  paymentMode : PaymentMethod
  amountPaid : ℚ
  notes : Option String
deriving DecidableEq

/-- From `KhataSaleParams` in `salesService.ts` (`customerId` required,
`paymentMode` fixed to `'credit'`). -/
structure KhataSaleParams where
  customerId : Int
  userId : Int
  items : List CartItem
  discount : ℚ
  amountPaid : ℚ
  notes : Option String
deriving DecidableEq

/-- Return shape of `calculateSaleTotals`. -/
structure SaleTotals where
  subtotal : ℚ
  discount : ℚ
  netAmount : ℚ
  totalCost : ℚ
  grossProfit : ℚ
  itemCount : ℚ
deriving DecidableEq

/-- From `calculateSaleTotals` in `salesService.ts`. -/
def calculateSaleTotals (items : List CartItem) (discount : ℚ) : SaleTotals :=
  let subtotal :=
    items.foldl (fun sum item => sum + item.quantity * item.unitPrice - item.discount) 0
  let netAmount := subtotal - discount
  let totalCost :=
    items.foldl (fun sum item => sum + item.quantity * item.product.wac_cost) 0
  { subtotal := subtotal
    discount := discount
    netAmount := netAmount
    totalCost := totalCost
    grossProfit := netAmount - totalCost
    itemCount := items.foldl (fun sum item => sum + item.quantity) 0 }

/-- From `SaleResult` in `salesService.ts`. -/
structure SaleResult where
  success : Bool
  sale : Sale
  saleItems : List SaleItem
  invoiceNumber : String
  change : ℚ
  ledgerEntry : Option LedgerEntry
deriving DecidableEq

/-- Return shape of `createCashSale`. -/
structure CashSaleOutcome where
  sale : SaleResult
  updatedProducts : List Product
deriving DecidableEq

/-- Sale-item list built by both sale functions: `items.map((item, index) => ...)`
with `id = Date.now() + index`. -/
def mkSaleItems (items : List CartItem) (saleId : Int) (now : Int) : List SaleItem :=
  items.enum.map fun pair =>
    { id := now + pair.1
      sale_id := saleId
      product_id := pair.2.product.id
      quantity := pair.2.quantity
      unit_price := pair.2.unitPrice
      cost_price := pair.2.product.wac_cost
      discount_amount := pair.2.discount
      total := pair.2.quantity * pair.2.unitPrice - pair.2.discount
      created_at := now }

/-- Per-product body of the product update shared by both sale functions:
`items.find(item => item.product.id === p.id)` then clamped decrement. -/
def sellProduct (items : List CartItem) (now : Int) (p : Product) : Product :=
  match items.find? (fun item => item.product.id == p.id) with
  | none => p
  | some soldItem =>
    { p with quantity := max 0 (p.quantity - soldItem.quantity), updated_at := now }

/-- Product update shared by both sale functions: each product with a matching
cart line has its quantity clamped-decremented, all others are returned as is. -/
def sellProducts (products : List Product) (items : List CartItem)
    (now : Int) : List Product :=
  products.map (sellProduct items now)

/-- From `createCashSale` in `salesService.ts`. In the source `discount > 0`
with `subtotal = 0` yields an `Infinity` discount percent; on `ℚ`, division
by zero yields `0` (no claim reads `discount_percent`). -/
def createCashSale (params : SaleParams) (products : List Product)
    (now : Int) (invoiceNumber : String) : CashSaleOutcome :=
  let totals := calculateSaleTotals params.items params.discount
  let change := max 0 (params.amountPaid - totals.netAmount)
  let sale : Sale :=
    { id := now
      invoice_number := invoiceNumber
      customer_id := params.customerId
      user_id := params.userId
      subtotal := totals.subtotal
      discount_amount := params.discount
      discount_percent := if params.discount > 0 then params.discount / totals.subtotal * 100 else 0
      tax_amount := 0
      total := totals.netAmount
      payment_method := .cash
      payment_received := params.amountPaid
      change_amount := change
      status := .completed
      notes := params.notes
      created_at := now }
  { sale :=
      { success := true
        sale := sale
        saleItems := mkSaleItems params.items sale.id now
        invoiceNumber := invoiceNumber
        change := change
        ledgerEntry := none }
    updatedProducts := sellProducts products params.items now }

/-- Return shape of `createKhataSale`. -/
structure KhataSaleOutcome where
  sale : SaleResult
  updatedProducts : List Product
  updatedCustomers : List Customer
  newLedgerEntry : LedgerEntry
deriving DecidableEq

/-- From `createKhataSale` in `salesService.ts`. -/
def createKhataSale (params : KhataSaleParams) (products : List Product)
    (customers : List Customer) (ledgerEntries : List LedgerEntry)
    (now : Int) (invoiceNumber : String) : Except String KhataSaleOutcome :=
  match customers.find? (fun c => c.id == params.customerId) with
  | none => .error ("Customer with ID " ++ toString params.customerId ++ " not found")
  | some customer =>
    let totals := calculateSaleTotals params.items params.discount
    let sale : Sale :=
      { id := now
        invoice_number := invoiceNumber
        customer_id := some params.customerId
        user_id := params.userId
        subtotal := totals.subtotal
        discount_amount := params.discount
        discount_percent := if params.discount > 0 then params.discount / totals.subtotal * 100 else 0
        tax_amount := 0
        total := totals.netAmount
        payment_method := .credit
        payment_received := 0
        change_amount := 0
        status := .completed
        notes := params.notes
        created_at := now }
    let newBalance := customer.credit_balance + totals.netAmount
    let newLedgerEntry : LedgerEntry :=
      { id := ledgerEntries.foldl (fun m e => max m e.id) 0 + 1
        customer_id := params.customerId
        -- Source comment: in the existing schema, 'credit' means customer
        -- owes (sale on credit).
        type := .credit
        amount := totals.netAmount
        balance := newBalance
        reference_id := some sale.id
        reference_type := some "sale"
        description := "Credit Sale - Invoice #" ++ invoiceNumber
        user_id := params.userId
        created_at := now }
    .ok
      { sale :=
          { success := true
            sale := sale
            saleItems := mkSaleItems params.items sale.id now
            invoiceNumber := invoiceNumber
            change := 0
            ledgerEntry := some newLedgerEntry }
        updatedProducts := sellProducts products params.items now
        updatedCustomers := customers.map fun c =>
          if c.id == params.customerId then
            { c with credit_balance := newBalance, updated_at := now }
          else c
        newLedgerEntry := newLedgerEntry }

/-- Return shape of `recordKhataPayment`. -/
structure PaymentOutcome where
  updatedCustomers : List Customer
  newLedgerEntry : LedgerEntry
deriving DecidableEq

/-- From `recordKhataPayment` in `salesService.ts`. -/
def recordKhataPayment (customerId : Int) (amount : ℚ) (userId : Int)
    (customers : List Customer) (ledgerEntries : List LedgerEntry)
    (now : Int) (description : Option String) : Except String PaymentOutcome :=
  match customers.find? (fun c => c.id == customerId) with
  | none => .error ("Customer with ID " ++ toString customerId ++ " not found")
  | some customer =>
    let newBalance := customer.credit_balance - amount
    let newLedgerEntry : LedgerEntry :=
      { id := ledgerEntries.foldl (fun m e => max m e.id) 0 + 1
        customer_id := customerId
        -- Source comment: in the existing schema, 'debit' means customer paid.
        type := .debit
        amount := amount
        balance := newBalance
        reference_id := none
        reference_type := some "payment"
        description := description.getD "Payment received"
        user_id := userId
        created_at := now }
    .ok
      { updatedCustomers := customers.map fun c =>
          if c.id == customerId then
            { c with credit_balance := newBalance, updated_at := now }
          else c
        newLedgerEntry := newLedgerEntry }

/-- From `DateRange` in `reportService.ts`; `Date` values as integer timestamps. -/
structure DateRange where
  startDate : Int
  endDate : Int
deriving DecidableEq

/-- From `ProfitReport` in `reportService.ts`. -/
structure ProfitReport where
  grossProfit : ℚ
  totalRevenue : ℚ
  totalCost : ℚ
  totalDiscounts : ℚ
  netProfit : ℚ
  profitMargin : ℚ
  transactionCount : Nat
  itemsSold : ℚ
deriving DecidableEq

/-- From `calculateNetProfit` in `reportService.ts`. The JS `Set` of sale ids
is modelled as the list of ids with membership lookup; the single `forEach`
pass accumulating four sums is rendered as four folds. -/
def calculateNetProfit (sales : List Sale) (saleItems : List SaleItem)
    (dateRange : Option DateRange) : ProfitReport :=
  let completed := sales.filter (fun s => s.status == .completed)
  let filteredSales :=
    match dateRange with
    | none => completed
    | some dr => completed.filter fun s =>
        decide (dr.startDate ≤ s.created_at) && decide (s.created_at ≤ dr.endDate)
  let saleIds := filteredSales.map Sale.id
  let filteredItems := saleItems.filter (fun item => saleIds.contains item.sale_id)
  let totalRevenue := filteredItems.foldl (fun acc it => acc + it.quantity * it.unit_price) 0
  let totalCost := filteredItems.foldl (fun acc it => acc + it.quantity * it.cost_price) 0
  let totalItemDiscounts := filteredItems.foldl (fun acc it => acc + it.discount_amount) 0
  let itemsSold := filteredItems.foldl (fun acc it => acc + it.quantity) 0
  let totalSaleDiscounts := filteredSales.foldl (fun acc s => acc + s.discount_amount) 0
  let grossProfit := totalRevenue - totalCost - totalItemDiscounts
  let netProfit := grossProfit - totalSaleDiscounts
  { grossProfit := grossProfit
    totalRevenue := totalRevenue
    totalCost := totalCost
    totalDiscounts := totalItemDiscounts + totalSaleDiscounts
    netProfit := netProfit
    profitMargin :=
      if totalRevenue > 0 then (jsRound (netProfit / totalRevenue * 10000) : ℚ) / 100 else 0
    transactionCount := filteredSales.length
    itemsSold := itemsSold }

/-- Order used by `getCustomerLedgerStatement`'s comparator
`(a, b) => b.created_at - a.created_at`: `a` may come before `b`
exactly when `b.created_at ≤ a.created_at` (descending creation time). -/
def ledgerDesc (a b : LedgerEntry) : Prop := b.created_at ≤ a.created_at

instance : DecidableRel ledgerDesc := fun a b =>
  inferInstanceAs (Decidable (b.created_at ≤ a.created_at))

instance : IsTotal LedgerEntry ledgerDesc :=
  ⟨fun a b => le_total b.created_at a.created_at⟩

instance : IsTrans LedgerEntry ledgerDesc :=
  ⟨fun _ _ _ h1 h2 => le_trans h2 h1⟩

/-- From `getCustomerLedgerStatement` in `reportService.ts`. JavaScript
`Array.prototype.sort` is a stable sort producing an order consistent with
the comparator (ES2019); it is embedded as the stable `insertionSort` by
the comparator's order `ledgerDesc`. -/
def getCustomerLedgerStatement (customerId : Int)
    (ledgerEntries : List LedgerEntry) : List LedgerEntry :=
  (ledgerEntries.filter (fun e => e.customer_id == customerId)).insertionSort ledgerDesc

/-- Whole-store state: one list per entity table touched by the claims. -/
structure State where
  products : List Product
  customers : List Customer
  ledger : List LedgerEntry
deriving DecidableEq

/-- One committed operation of the engine, with its environment inputs
(clock value, generated invoice number). -/
inductive Op where
  | stockIn (params : StockInParams) (now : Int)
  | cashSale (params : SaleParams) (now : Int) (invoiceNumber : String)
  | creditSale (params : KhataSaleParams) (now : Int) (invoiceNumber : String)
  | stockOut (input : StockOutInput) (now : Int)
  | payment (customerId : Int) (amount : ℚ) (userId : Int) (now : Int)
      (description : Option String)
deriving DecidableEq

/-- Apply one operation to the store. A failed operation rolls its
transaction back, leaving the state unchanged; a successful credit sale or
payment appends its new ledger entry (SQL `INSERT`) at the end. -/
def step (s : State) : Op → State
  | .stockIn params now =>
    match performStockIn s.products params now with
    | .ok r => { s with products := r.updatedProducts }
    | .error _ => s
  | .cashSale params now inv =>
    { s with products := (createCashSale params s.products now inv).updatedProducts }
  | .creditSale params now inv =>
    match createKhataSale params s.products s.customers s.ledger now inv with
    | .ok r =>
      { products := r.updatedProducts
        customers := r.updatedCustomers
        ledger := s.ledger ++ [r.newLedgerEntry] }
    | .error _ => s
  | .stockOut input now =>
    match stockOut s.products input now with
    | .ok r => { s with products := r.updatedProducts }
    | .error _ => s
  | .payment customerId amount userId now description =>
    match recordKhataPayment customerId amount userId s.customers s.ledger now description with
    | .ok r => { s with customers := r.updatedCustomers, ledger := s.ledger ++ [r.newLedgerEntry] }
    | .error _ => s

/-- Every product quantity in the list is nonnegative. -/
def prodInv (products : List Product) : Prop := ∀ p ∈ products, 0 ≤ p.quantity

/-- A stock-receipt operation carries a positive quantity (the spec's input
constraint `addedQuantity > 0` on `receiveStock`); all other operations are
unconstrained. -/
def stockInPositive : Op → Bool
  | .stockIn params _ => decide (0 < params.quantity)
  | _ => true

/-- The standing ledger invariant: each customer's stored balance equals the
running balance of the customer's most recently appended ledger entry, or 0
if the customer has none. -/
def ledgerInv (s : State) : Prop :=
  ∀ c ∈ s.customers,
    c.credit_balance =
      (((s.ledger.filter (fun e => e.customer_id == c.id)).getLast?).map
        LedgerEntry.balance).getD 0

/-- Spec-vocabulary kind of a ledger entry (§3 of the spec: "debit (customer
owes more), credit (customer paid or was credited)"). -/
inductive SpecEntryKind where
  | debit | credit
deriving DecidableEq

/-- Translation between the stored `type` label and the spec's vocabulary,
exactly as documented by the source's own comments: the stored `'credit'`
label marks an entry by which the customer owes more (the spec's debit), and
the stored `'debit'` label marks a payment (the spec's credit). -/
def specKind : EntryType → Option SpecEntryKind
  | .credit => some .debit
  | .debit => some .credit
  | .opening => none

/-- Net profit as the spec words it for `profitForRange(start, end)`: over
completed sales with timestamp in the half-open interval `[start, end)`, the
sum over those sales' lines of `lineQuantity*(unitPrice - costAtSale)` minus
line discounts, minus the sale-level discounts. -/
def specNetProfit (sales : List Sale) (saleItems : List SaleItem)
    (dr : DateRange) : ℚ :=
  let chosen := sales.filter fun s =>
    s.status == .completed &&
      (decide (dr.startDate ≤ s.created_at) && decide (s.created_at < dr.endDate))
  let lines := saleItems.filter fun it => (chosen.map Sale.id).contains it.sale_id
  (lines.map fun it =>
      it.quantity * (it.unit_price - it.cost_price) - it.discount_amount).sum
    - (chosen.map Sale.discount_amount).sum

/-- The same spec formula with the timestamp interval closed at both ends,
`[start, end]`. -/
def specNetProfitClosed (sales : List Sale) (saleItems : List SaleItem)
    (dr : DateRange) : ℚ :=
  let chosen := sales.filter fun s =>
    s.status == .completed &&
      (decide (dr.startDate ≤ s.created_at) && decide (s.created_at ≤ dr.endDate))
  let lines := saleItems.filter fun it => (chosen.map Sale.id).contains it.sale_id
  (lines.map fun it =>
      it.quantity * (it.unit_price - it.cost_price) - it.discount_amount).sum
    - (chosen.map Sale.discount_amount).sum

/-- Folding `acc + g x` over a list accumulates the sum of `g` over it. -/
theorem foldl_add_eq_sum {α : Type} (g : α → ℚ) :
    ∀ (l : List α) (a : ℚ), l.foldl (fun acc x => acc + g x) a = a + (l.map g).sum
  | [], a => by simp
  | x :: xs, a => by
    rw [List.foldl_cons, foldl_add_eq_sum g xs (a + g x), List.map_cons, List.sum_cons]
    ring

/-- The per-line profit sum splits into revenue, cost and discount sums. -/
theorem sum_line_profit (l : List SaleItem) :
    (l.map fun it =>
        it.quantity * (it.unit_price - it.cost_price) - it.discount_amount).sum
      = (l.map fun it => it.quantity * it.unit_price).sum
        - (l.map fun it => it.quantity * it.cost_price).sum
        - (l.map fun it => it.discount_amount).sum := by
  induction l with
  | nil => simp
  | cons x xs ih => simp only [List.map_cons, List.sum_cons, ih]; ring

/-- A weighted average of two values with nonnegative weights (total positive)
lies between them. -/
theorem wavg_between (cq w aq u : ℚ) (hcq : 0 ≤ cq) (haq : 0 < aq) :
    min w u ≤ (cq * w + aq * u) / (cq + aq)
      ∧ (cq * w + aq * u) / (cq + aq) ≤ max w u := by
  have hs : 0 < cq + aq := by linarith
  constructor
  · rw [le_div_iff₀ hs]
    rcases le_total w u with h | h
    · rw [min_eq_left h]; nlinarith
    · rw [min_eq_right h]; nlinarith
  · rw [div_le_iff₀ hs]
    rcases le_total w u with h | h
    · rw [max_eq_right h]; nlinarith
    · rw [max_eq_left h]; nlinarith

/-- Rounding to whole cents cannot cross a lower bound that is itself a whole
number of cents. -/
theorem round2_ge (x : ℚ) (m : ℤ) (h : (m : ℚ) / 100 ≤ x) :
    (m : ℚ) / 100 ≤ round2 x := by
  rw [round2, jsRound, div_le_div_iff_of_pos_right (by norm_num : (0:ℚ) < 100)]
  rw [Int.cast_le]
  apply Int.le_floor.mpr
  have : (m : ℚ) ≤ x * 100 := by
    rw [div_le_iff₀ (by norm_num : (0:ℚ) < 100)] at h
    linarith
  linarith

/-- Rounding to whole cents cannot cross an upper bound that is itself a whole
number of cents. -/
theorem round2_le (x : ℚ) (n : ℤ) (h : x ≤ (n : ℚ) / 100) :
    round2 x ≤ (n : ℚ) / 100 := by
  rw [round2, jsRound, div_le_div_iff_of_pos_right (by norm_num : (0:ℚ) < 100)]
  rw [Int.cast_le]
  have hx : x * 100 ≤ (n : ℚ) := by
    rw [le_div_iff₀ (by norm_num : (0:ℚ) < 100)] at h
    linarith
  have : (⌊x * 100 + 1 / 2⌋ : ℤ) < n + 1 := by
    apply Int.floor_lt.mpr
    push_cast
    linarith
  omega

/-- A product with five units in stock, used as a concrete input. -/
def c1Product : Product :=
  { id := 1, cost_price := 3, selling_price := 10, quantity := 5,
    min_stock_level := 2, wac_cost := 3, is_active := true, updated_at := 0 }

/-- A cash-sale request asking for six units of `c1Product`. -/
def c1Params : SaleParams :=
  { customerId := none, userId := 1,
    items := [{ product := c1Product, quantity := 6, unitPrice := 10, discount := 0 }],
    discount := 0, paymentMode := .cash, amountPaid := 100, notes := none }

/-- C1 counterexample: on a product with quantity 5 and a requested line
quantity of 6, `createCashSale` does not fail with `InsufficientStock`; it
succeeds and the product's quantity is changed (clamped to 0). -/
theorem c1_cash_sale_oversell_counterexample :
    (createCashSale c1Params [c1Product] 1000 "INV-1").sale.success = true
      ∧ (createCashSale c1Params [c1Product] 1000 "INV-1").updatedProducts.map
          Product.quantity = [0]
      ∧ c1Product.quantity = 5
      ∧ c1Params.items.map CartItem.quantity = [6] := by
  refine ⟨rfl, ?_, by norm_num [c1Product], by norm_num [c1Params]⟩
  norm_num [createCashSale, sellProducts, sellProduct, c1Params, c1Product]

/-- C1 (amended): `createCashSale` performs no insufficient-stock check and
never fails. For every line set it reports success, and each product with a
matching cart line ends with quantity `max 0 (quantity - lineQuantity)` —
in particular an oversell silently truncates the stock at 0 instead of
failing, and a request with every line quantity positive and within stock
succeeds with exact decrements. -/
theorem c1_cash_sale_never_fails_clamps (params : SaleParams)
    (products : List Product) (now : Int) (inv : String)
    (p : Product) (item : CartItem) (hp : p ∈ products)
    (hfind : params.items.find? (fun it => it.product.id == p.id) = some item) :
    (createCashSale params products now inv).sale.success = true
      ∧ { p with quantity := max 0 (p.quantity - item.quantity), updated_at := now }
          ∈ (createCashSale params products now inv).updatedProducts := by
  refine ⟨rfl, ?_⟩
  have hmem := List.mem_map_of_mem (sellProduct params.items now) hp
  rw [sellProduct, hfind] at hmem
  exact hmem

/-- The single cart item of `c1Params`. -/
def c1Item : CartItem :=
  { product := c1Product, quantity := 6, unitPrice := 10, discount := 0 }

/-- Witness for C1 at the concrete oversell input. -/
theorem c1_witness :
    c1Product ∈ [c1Product]
      ∧ c1Params.items.find? (fun it => it.product.id == c1Product.id) = some c1Item
      ∧ ((createCashSale c1Params [c1Product] 1000 "INV-1").sale.success = true
          ∧ { c1Product with
                quantity := max 0 (c1Product.quantity - c1Item.quantity)
                updated_at := 1000 }
              ∈ (createCashSale c1Params [c1Product] 1000 "INV-1").updatedProducts) :=
  ⟨List.mem_singleton.mpr rfl, rfl,
    c1_cash_sale_never_fails_clamps c1Params [c1Product] 1000 "INV-1" c1Product c1Item
      (List.mem_singleton.mpr rfl) rfl⟩

/-- A product with zero stock, used as a concrete input. -/
def c2Product : Product :=
  { id := 1, cost_price := 0, selling_price := 10, quantity := 0,
    min_stock_level := 5, wac_cost := 0, is_active := true, updated_at := 0 }

/-- C2 counterexample: receiving stock into a product with quantity 0 at a
unit cost of 0.005 stores `round2(0.005) = 0.01` as the new WAC, not the
claimed bare `unitCost`; the 2-decimal rounding is applied in the
zero-quantity branch as well. -/
theorem c2_wac_zero_stock_rounding_counterexample :
    (performStockIn [c2Product]
        { productId := 1, quantity := 1, unitCost := 1 / 200, supplierId := none,
          userId := 1, notes := none } 5).toOption.map
        (fun r => r.result.product.wac_cost) = some (1 / 100)
      ∧ ((1 : ℚ) / 100 ≠ 1 / 200)
      ∧ c2Product.quantity = 0 := by
  refine ⟨?_, by norm_num, by norm_num [c2Product]⟩
  norm_num [performStockIn, c2Product, calculateNewWAC, calculateWAC, round2,
    jsRound, Except.toOption]

/-- C2 (amended): for a stock receipt on an existing product with
`addedQuantity > 0` and current quantity ≥ 0, the stored quantity is the sum
and the stored WAC is always the 2-decimal rounding: of `unitCost` itself
when the current quantity is 0 (hence equal to `unitCost` exactly when
`unitCost` is a whole number of cents), and of
`(q*wac + addedQuantity*unitCost)/(q + addedQuantity)` otherwise. -/
theorem c2_wac_update_formula (products : List Product)
    (params : StockInParams) (now : Int) (p : Product)
    (hfind : products.find? (fun q => q.id == params.productId) = some p)
    (hq : 0 < params.quantity) (hp : 0 ≤ p.quantity) :
    ∃ r, performStockIn products params now = .ok r
      ∧ r.result.product.quantity = p.quantity + params.quantity
      ∧ r.result.product.wac_cost =
          (if p.quantity = 0 then round2 params.unitCost
           else round2 ((p.quantity * p.wac_cost + params.quantity * params.unitCost)
              / (p.quantity + params.quantity))) := by
  rw [performStockIn, hfind]
  refine ⟨_, rfl, rfl, ?_⟩
  show round2 (calculateNewWAC p.quantity p.wac_cost params.quantity params.unitCost) = _
  have htot : 0 < p.quantity + params.quantity := by linarith
  rw [calculateNewWAC, calculateWAC]
  simp only [not_le.mpr htot, if_false, ne_of_gt htot, if_neg (ne_of_gt htot).symm]
  by_cases h0 : p.quantity = 0
  · rw [if_pos h0, h0]
    congr 1
    field_simp
  · rw [if_neg h0]

/-- The product as it stands after the scenario's first receipt. -/
def c2Product10 : Product :=
  { c2Product with
      quantity := 10
      wac_cost := 100
      cost_price := 100
      updated_at := 50 }

/-- Witness for C2: the spec's scenario. Starting from quantity 0, receiving
10 units at cost 100 yields quantity 10 and WAC 100; receiving 10 more at
cost 120 yields quantity 20 and WAC 110. -/
theorem c2_witness :
    (performStockIn [c2Product]
        { productId := 1, quantity := 10, unitCost := 100, supplierId := none,
          userId := 1, notes := none } 50).toOption.map
        (fun r => (r.result.product.quantity, r.result.product.wac_cost))
        = some (10, 100)
      ∧ ∃ r, performStockIn [c2Product10]
            { productId := 1, quantity := 10, unitCost := 120, supplierId := none,
              userId := 1, notes := none } 60 = .ok r
          ∧ r.result.product.quantity = 20
          ∧ r.result.product.wac_cost = 110 := by
  constructor
  · norm_num [performStockIn, c2Product, calculateNewWAC, calculateWAC, round2,
      jsRound, Except.toOption]
  · obtain ⟨r, hr, hq, hw⟩ :=
      c2_wac_update_formula [c2Product10]
        { productId := 1, quantity := 10, unitCost := 120, supplierId := none,
          userId := 1, notes := none } 60 c2Product10
        (by norm_num [c2Product10, c2Product, List.find?])
        (by norm_num) (by norm_num [c2Product10, c2Product])
    refine ⟨r, hr, ?_, ?_⟩
    · rw [hq]; norm_num [c2Product10, c2Product]
    · rw [hw]; norm_num [c2Product10, c2Product, round2, jsRound]

/-- A product with five units in stock, used as a concrete input for C8. -/
def c8Product : Product :=
  { id := 1, cost_price := 10, selling_price := 20, quantity := 5,
    min_stock_level := 2, wac_cost := 10, is_active := true, updated_at := 0 }

/-- C8 counterexample: a stock receipt with `addedQuantity = -2 ≤ 0` and
`unitCost = -3 < 0` is not rejected; `performStockIn` succeeds and changes
the product (quantity 5 becomes 3, cost price becomes -3). -/
theorem c8_no_input_validation_counterexample :
    (performStockIn [c8Product]
        { productId := 1, quantity := -2, unitCost := -3, supplierId := none,
          userId := 1, notes := none } 5).toOption.map
        (fun r => (r.result.product.quantity, r.result.product.cost_price))
        = some (3, -3)
      ∧ ((-2 : ℚ) ≤ 0) ∧ ((-3 : ℚ) < 0) ∧ c8Product.quantity = 5 := by
  refine ⟨?_, by norm_num, by norm_num, by norm_num [c8Product]⟩
  norm_num [performStockIn, c8Product, calculateNewWAC, calculateWAC, round2,
    jsRound, Except.toOption]

/-- C8 (amended): `performStockIn` returns a typed failure in exactly one
case — `ProductNotFound`, when no product has the given id. It performs no
quantity or cost validation: every call on an existing product succeeds,
including calls with `addedQuantity ≤ 0` or `unitCost < 0`, and it updates
the product's quantity and cost fields. -/
theorem c8_stock_in_failure_modes (products : List Product)
    (params : StockInParams) (now : Int) :
    (products.find? (fun p => p.id == params.productId) = none →
      performStockIn products params now =
        .error ("Product with ID " ++ toString params.productId ++ " not found"))
      ∧ ∀ p, products.find? (fun p => p.id == params.productId) = some p →
          ∃ r, performStockIn products params now = .ok r
            ∧ r.result.product.quantity = p.quantity + params.quantity
            ∧ r.result.product.cost_price = params.unitCost := by
  constructor
  · intro hnone
    rw [performStockIn, hnone]
  · intro p hfind
    rw [performStockIn, hfind]
    exact ⟨_, rfl, rfl, rfl⟩

/-- Witness for C8 at a concrete invalid input: the negative-quantity,
negative-cost receipt on an existing product goes through and changes it. -/
theorem c8_witness :
    [c8Product].find? (fun p => p.id == (1 : Int)) = some c8Product
      ∧ ∃ r, performStockIn [c8Product]
            { productId := 1, quantity := -2, unitCost := -3, supplierId := none,
              userId := 1, notes := none } 5 = .ok r
          ∧ r.result.product.quantity = 3
          ∧ r.result.product.cost_price = -3 := by
  have hfind : [c8Product].find? (fun p => p.id == (1 : Int)) = some c8Product := by
    norm_num [c8Product, List.find?]
  refine ⟨hfind, ?_⟩
  obtain ⟨r, hr, hq, hc⟩ :=
    (c8_stock_in_failure_modes [c8Product]
      { productId := 1, quantity := -2, unitCost := -3, supplierId := none,
        userId := 1, notes := none } 5).2 c8Product hfind
  refine ⟨r, hr, ?_, ?_⟩
  · rw [hq]; norm_num [c8Product]
  · rw [hc]

/-- C3: on an existing customer, `createKhataSale` produces exactly one new
ledger entry; it is an owes-more entry (the spec's debit — stored under the
schema's inverted label `'credit'`, as the source comments document), its
amount equals the sale total, its running balance equals the customer's
balance before the sale plus the total, and every updated customer record
with the sale's customer id carries that same balance. -/
theorem c3_khata_sale_ledger_entry (params : KhataSaleParams)
    (products : List Product) (customers : List Customer)
    (ledgerEntries : List LedgerEntry) (now : Int) (inv : String) (cust : Customer)
    (hfind : customers.find? (fun c => c.id == params.customerId) = some cust) :
    ∃ r, createKhataSale params products customers ledgerEntries now inv = .ok r
      ∧ r.sale.ledgerEntry = some r.newLedgerEntry
      ∧ r.newLedgerEntry.type = .credit
      ∧ specKind r.newLedgerEntry.type = some .debit
      ∧ r.newLedgerEntry.customer_id = params.customerId
      ∧ r.newLedgerEntry.amount = r.sale.sale.total
      ∧ r.sale.sale.total = (calculateSaleTotals params.items params.discount).netAmount
      ∧ r.newLedgerEntry.balance = cust.credit_balance + r.sale.sale.total
      ∧ ∀ c ∈ r.updatedCustomers, c.id = params.customerId →
          c.credit_balance = r.newLedgerEntry.balance := by
  rw [createKhataSale, hfind]
  refine ⟨_, rfl, rfl, rfl, rfl, rfl, rfl, rfl, rfl, ?_⟩
  intro c hc hid
  simp only [List.mem_map] at hc
  obtain ⟨c0, _, rfl⟩ := hc
  by_cases hbeq : c0.id == params.customerId
  · simp only [hbeq, if_true]
  · simp only [hbeq, if_false] at hid ⊢
    exact absurd hid (by simpa using hbeq)

/-- The concrete customer of the C3 scenario, with zero balance. -/
def c3Customer : Customer :=
  { id := 7, credit_limit := 1000, credit_balance := 0, is_active := true,
    updated_at := 0 }

/-- A product priced 50 with WAC 30, used in the C3 scenario. -/
def c3Product : Product :=
  { id := 2, cost_price := 30, selling_price := 50, quantity := 10,
    min_stock_level := 2, wac_cost := 30, is_active := true, updated_at := 0 }

/-- The C3 scenario request: one line of quantity 2 at unit price 50 (cost
snapshot 30), no discount. -/
def c3Params : KhataSaleParams :=
  { customerId := 7, userId := 1,
    items := [{ product := c3Product, quantity := 2, unitPrice := 50, discount := 0 }],
    discount := 0, amountPaid := 0, notes := none }

/-- Witness for C3: the spec scenario. From balance 0, one line of 2 × 50
with no discount yields total 100, a spec-debit entry with amount 100 and
running balance 100, and customer balance 100. -/
theorem c3_witness :
    [c3Customer].find? (fun c => c.id == c3Params.customerId) = some c3Customer
      ∧ (∃ r, createKhataSale c3Params [c3Product] [c3Customer] [] 77 "INV-3" = .ok r
          ∧ r.sale.ledgerEntry = some r.newLedgerEntry
          ∧ r.newLedgerEntry.type = .credit
          ∧ specKind r.newLedgerEntry.type = some .debit
          ∧ r.newLedgerEntry.customer_id = c3Params.customerId
          ∧ r.newLedgerEntry.amount = r.sale.sale.total
          ∧ r.sale.sale.total = (calculateSaleTotals c3Params.items c3Params.discount).netAmount
          ∧ r.newLedgerEntry.balance = c3Customer.credit_balance + r.sale.sale.total
          ∧ ∀ c ∈ r.updatedCustomers, c.id = c3Params.customerId →
              c.credit_balance = r.newLedgerEntry.balance)
      ∧ (calculateSaleTotals c3Params.items c3Params.discount).netAmount = 100
      ∧ c3Customer.credit_balance = 0 :=
  ⟨rfl,
    c3_khata_sale_ledger_entry c3Params [c3Product] [c3Customer] [] 77 "INV-3"
      c3Customer rfl,
    by norm_num [calculateSaleTotals, c3Params, c3Product],
    by norm_num [c3Customer]⟩

/-- C10: frame conditions of the credit-sale and payment transactions. An
existing-customer credit sale leaves every product without a matching cart
line and every customer with a different id exactly as given (same list
position, all fields equal), and a successful payment leaves every customer
with a different id exactly as given. -/
theorem c10_frame_conditions (params : KhataSaleParams)
    (products : List Product) (customers : List Customer)
    (ledgerEntries : List LedgerEntry) (now : Int) (inv : String) (cust : Customer)
    (hfind : customers.find? (fun c => c.id == params.customerId) = some cust) :
    (∃ r, createKhataSale params products customers ledgerEntries now inv = .ok r
      ∧ (∀ (i : Nat) (p : Product), products[i]? = some p →
          params.items.find? (fun it => it.product.id == p.id) = none →
          r.updatedProducts[i]? = some p)
      ∧ (∀ (i : Nat) (c : Customer), customers[i]? = some c → c.id ≠ params.customerId →
          r.updatedCustomers[i]? = some c))
    ∧ ∀ customerId amount userId desc (r2 : PaymentOutcome),
        recordKhataPayment customerId amount userId customers ledgerEntries now desc
          = .ok r2 →
        ∀ (i : Nat) (c : Customer), customers[i]? = some c → c.id ≠ customerId →
          r2.updatedCustomers[i]? = some c := by
  constructor
  · rw [createKhataSale, hfind]
    refine ⟨_, rfl, ?_, ?_⟩
    · intro i p hip hnone
      show (sellProducts products params.items now)[i]? = some p
      rw [sellProducts, List.getElem?_map, hip, Option.map_some']
      rw [sellProduct, hnone]
    · intro i c hic hne
      show (customers.map _)[i]? = some c
      rw [List.getElem?_map, hic, Option.map_some']
      simp only [show (c.id == params.customerId) = false from beq_eq_false_iff_ne.mpr hne,
        Bool.false_eq_true, if_false]
  · intro customerId amount userId desc r2 hok i c hic hne
    rw [recordKhataPayment] at hok
    cases hf : customers.find? (fun c => c.id == customerId) with
    | none => rw [hf] at hok; exact absurd hok (by simp)
    | some cust2 =>
      rw [hf] at hok
      have hr2 := Except.ok.inj hok
      subst hr2
      show (customers.map _)[i]? = some c
      rw [List.getElem?_map, hic, Option.map_some']
      simp only [show (c.id == customerId) = false from beq_eq_false_iff_ne.mpr hne,
        Bool.false_eq_true, if_false]

/-- Witness for C10 at concrete inputs: a credit sale whose cart touches only
product 2 leaves product 9 in place, and a payment by customer 7 leaves
customer 8 in place. -/
theorem c10_witness :
    [c3Customer].find? (fun c => c.id == c3Params.customerId) = some c3Customer
      ∧ ((∃ r, createKhataSale c3Params [c1Product] [c3Customer] [] 77 "INV-4" = .ok r
          ∧ (∀ (i : Nat) (p : Product), [c1Product][i]? = some p →
              c3Params.items.find? (fun it => it.product.id == p.id) = none →
              r.updatedProducts[i]? = some p)
          ∧ (∀ (i : Nat) (c : Customer), [c3Customer][i]? = some c →
              c.id ≠ c3Params.customerId →
              r.updatedCustomers[i]? = some c))
        ∧ ∀ customerId amount userId desc (r2 : PaymentOutcome),
            recordKhataPayment customerId amount userId [c3Customer] [] 77 desc
              = .ok r2 →
            ∀ (i : Nat) (c : Customer), [c3Customer][i]? = some c → c.id ≠ customerId →
              r2.updatedCustomers[i]? = some c) :=
  ⟨rfl, c10_frame_conditions c3Params [c1Product] [c3Customer] [] 77 "INV-4"
    c3Customer rfl⟩

/-- A completed sale whose timestamp sits exactly at the range's end. -/
def c6SaleEnd : Sale :=
  { id := 3, invoice_number := "I", customer_id := none, user_id := 1,
    subtotal := 10, discount_amount := 0, discount_percent := 0, tax_amount := 0,
    total := 10, payment_method := .cash, payment_received := 10,
    change_amount := 0, status := .completed, notes := none, created_at := 100 }

/-- The single line of `c6SaleEnd`: one unit at price 10 with cost 4. -/
def c6ItemEnd : SaleItem :=
  { id := 4, sale_id := 3, product_id := 1, quantity := 1, unit_price := 10,
    cost_price := 4, discount_amount := 0, total := 10, created_at := 100 }

/-- C6 counterexample: a completed sale whose timestamp equals `endDate` is
counted by `calculateNetProfit` (net profit 6), while the claimed half-open
interval `[start, end)` would exclude it (net profit 0) — the implementation
filters with `saleDate <= endDate`, a closed interval. -/
theorem c6_end_inclusive_counterexample :
    (calculateNetProfit [c6SaleEnd] [c6ItemEnd]
        (some { startDate := 0, endDate := 100 })).netProfit = 6
      ∧ specNetProfit [c6SaleEnd] [c6ItemEnd] { startDate := 0, endDate := 100 } = 0
      ∧ c6SaleEnd.created_at = 100 := by
  refine ⟨?_, ?_, by norm_num [c6SaleEnd]⟩
  · norm_num [calculateNetProfit, c6SaleEnd, c6ItemEnd]
  · norm_num [specNetProfit, c6SaleEnd, c6ItemEnd]

/-- The spec-scenario sale: 2 × 50 with cost snapshot 30, no discounts. -/
def c6Sale40 : Sale :=
  { id := 5, invoice_number := "I", customer_id := none, user_id := 1,
    subtotal := 100, discount_amount := 0, discount_percent := 0, tax_amount := 0,
    total := 100, payment_method := .cash, payment_received := 100,
    change_amount := 0, status := .completed, notes := none, created_at := 10 }

/-- The single line of `c6Sale40`. -/
def c6Item40 : SaleItem :=
  { id := 6, sale_id := 5, product_id := 1, quantity := 2, unit_price := 50,
    cost_price := 30, discount_amount := 0, total := 100, created_at := 10 }

/-- C6 (amended): `calculateNetProfit` sums exactly over completed sales with
timestamp in the closed interval `[start, end]` (not the claimed half-open
one), and over those sales' lines its net profit equals
`Σ lineQuantity*(unitPrice - costAtSale) - Σ lineDiscount - Σ saleDiscount`,
using each line's stored cost snapshot; the scenario sale of 2 × 50 at cost
30 with no discounts yields net profit 40. -/
theorem c6_net_profit_closed_interval :
    (∀ (sales : List Sale) (saleItems : List SaleItem) (dr : DateRange),
      (calculateNetProfit sales saleItems (some dr)).netProfit
        = specNetProfitClosed sales saleItems dr)
    ∧ (calculateNetProfit [c6Sale40] [c6Item40] none).netProfit = 40 := by
  constructor
  · intro sales saleItems dr
    have hsel :
        (sales.filter (fun s => s.status == SaleStatus.completed)).filter
            (fun s => decide (dr.startDate ≤ s.created_at)
              && decide (s.created_at ≤ dr.endDate))
          = sales.filter (fun s => s.status == SaleStatus.completed &&
              (decide (dr.startDate ≤ s.created_at)
                && decide (s.created_at ≤ dr.endDate))) := by
      rw [List.filter_filter]
      exact List.filter_congr fun a _ => Bool.and_comm _ _
    simp only [calculateNetProfit, specNetProfitClosed]
    rw [hsel, sum_line_profit]
    simp only [foldl_add_eq_sum]
    ring
  · norm_num [calculateNetProfit, c6Sale40, c6Item40]

/-- A product whose WAC is 0.004, below half a cent. -/
def c7Product : Product :=
  { id := 1, cost_price := 1 / 250, selling_price := 1, quantity := 1,
    min_stock_level := 2, wac_cost := 1 / 250, is_active := true, updated_at := 0 }

/-- C7 counterexample: receiving 1 unit at cost 0.004 into a product with one
unit at WAC 0.004 gives the exact average 0.004, but the stored 2-decimal
rounding is 0.00, strictly below `min(currentWac, unitCost) = 0.004` — the
claimed bound fails once rounding is applied. -/
theorem c7_wac_bound_counterexample :
    (performStockIn [c7Product]
        { productId := 1, quantity := 1, unitCost := 1 / 250, supplierId := none,
          userId := 1, notes := none } 5).toOption.map
        (fun r => r.result.product.wac_cost) = some 0
      ∧ (0 : ℚ) < min c7Product.wac_cost (1 / 250) := by
  constructor
  · norm_num [performStockIn, c7Product, calculateNewWAC, calculateWAC, round2,
      jsRound, Except.toOption]
  · norm_num [c7Product]

/-- C7 (amended): for a stock receipt with `addedQuantity > 0`,
`currentQuantity ≥ 0`, and `currentWac` and `unitCost` both whole numbers of
cents (integer multiples of 0.01 — as every engine-stored WAC is, being the
output of the 2-decimal rounding), the stored rounded WAC lies between
`min(currentWac, unitCost)` and `max(currentWac, unitCost)` inclusive. -/
theorem c7_wac_bound_whole_cents (products : List Product)
    (params : StockInParams) (now : Int) (p : Product) (m n : ℤ)
    (hfind : products.find? (fun q => q.id == params.productId) = some p)
    (hp : 0 ≤ p.quantity) (hq : 0 < params.quantity)
    (hw : p.wac_cost = (m : ℚ) / 100) (hc : params.unitCost = (n : ℚ) / 100) :
    ∃ r, performStockIn products params now = .ok r
      ∧ min p.wac_cost params.unitCost ≤ r.result.product.wac_cost
      ∧ r.result.product.wac_cost ≤ max p.wac_cost params.unitCost := by
  rw [performStockIn, hfind]
  have htot : 0 < p.quantity + params.quantity := by linarith
  have hwac : calculateNewWAC p.quantity p.wac_cost params.quantity params.unitCost
      = (p.quantity * p.wac_cost + params.quantity * params.unitCost)
          / (p.quantity + params.quantity) := by
    rw [calculateNewWAC, calculateWAC]
    simp only [not_le.mpr htot, if_false]
    rw [if_neg (ne_of_gt htot)]
  have hb := wavg_between p.quantity p.wac_cost params.quantity params.unitCost hp hq
  refine ⟨_, rfl, ?_, ?_⟩
  · show min p.wac_cost params.unitCost
      ≤ round2 (calculateNewWAC p.quantity p.wac_cost params.quantity params.unitCost)
    rw [hwac]
    rcases le_total p.wac_cost params.unitCost with h | h
    · have h1 : p.wac_cost ≤ _ := (min_eq_left h) ▸ hb.1
      rw [min_eq_left h, hw]
      exact round2_ge _ m (by rw [← hw]; exact h1)
    · have h1 : params.unitCost ≤ _ := (min_eq_right h) ▸ hb.1
      rw [min_eq_right h, hc]
      exact round2_ge _ n (by rw [← hc]; exact h1)
  · show round2 (calculateNewWAC p.quantity p.wac_cost params.quantity params.unitCost)
      ≤ max p.wac_cost params.unitCost
    rw [hwac]
    rcases le_total p.wac_cost params.unitCost with h | h
    · have h2 : _ ≤ params.unitCost := (max_eq_right h) ▸ hb.2
      rw [max_eq_right h, hc]
      exact round2_le _ n (by rw [← hc]; exact h2)
    · have h2 : _ ≤ p.wac_cost := (max_eq_left h) ▸ hb.2
      rw [max_eq_left h, hw]
      exact round2_le _ m (by rw [← hw]; exact h2)

/-- A product with WAC 10.00 and five units, used in C7's witness. -/
def c7CentsProduct : Product :=
  { id := 1, cost_price := 10, selling_price := 20, quantity := 5,
    min_stock_level := 2, wac_cost := 10, is_active := true, updated_at := 0 }

/-- Witness for C7 at a whole-cent input: 5 units at WAC 10.00 plus 5 units
at cost 12.00 keeps the stored WAC between 10.00 and 12.00. -/
theorem c7_witness :
    [c7CentsProduct].find? (fun q => q.id == (1 : Int)) = some c7CentsProduct
      ∧ (0 : ℚ) ≤ c7CentsProduct.quantity
      ∧ (0 : ℚ) < 5
      ∧ c7CentsProduct.wac_cost = ((1000 : ℤ) : ℚ) / 100
      ∧ (12 : ℚ) = ((1200 : ℤ) : ℚ) / 100
      ∧ ∃ r, performStockIn [c7CentsProduct]
            { productId := 1, quantity := 5, unitCost := 12, supplierId := none,
              userId := 1, notes := none } 9 = .ok r
          ∧ min c7CentsProduct.wac_cost 12 ≤ r.result.product.wac_cost
          ∧ r.result.product.wac_cost ≤ max c7CentsProduct.wac_cost 12 :=
  ⟨rfl, by norm_num [c7CentsProduct], by norm_num, by norm_num [c7CentsProduct],
    by norm_num,
    c7_wac_bound_whole_cents [c7CentsProduct]
      { productId := 1, quantity := 5, unitCost := 12, supplierId := none,
        userId := 1, notes := none } 9 c7CentsProduct 1000 1200 rfl
      (by norm_num [c7CentsProduct]) (by norm_num)
      (by norm_num [c7CentsProduct]) (by norm_num)⟩

/-- Inserting an element into a list is invisible to the entries of any other
creation time, and prepends the element to the entries of its own creation
time: skipped elements are strictly newer, so they never share its time. -/
theorem filter_createdAt_orderedInsert (t : Int) (a : LedgerEntry)
    (l : List LedgerEntry) :
    (l.orderedInsert ledgerDesc a).filter (fun e => e.created_at == t)
      = if a.created_at == t
          then a :: l.filter (fun e => e.created_at == t)
          else l.filter (fun e => e.created_at == t) := by
  induction l with
  | nil =>
    by_cases hqa : a.created_at == t <;>
      simp [List.orderedInsert, List.filter_cons, hqa]
  | cons b l ih =>
    by_cases hab : ledgerDesc a b
    · rw [List.orderedInsert_of_le ledgerDesc l hab]
      by_cases hqa : a.created_at == t <;> simp [List.filter_cons, hqa]
    · have hins : (b :: l).orderedInsert ledgerDesc a
          = b :: l.orderedInsert ledgerDesc a := by
        simp [List.orderedInsert, hab]
      rw [hins]
      by_cases hqb : b.created_at == t
      · have hlt : a.created_at < b.created_at := not_le.mp hab
        have hbt : b.created_at = t := by simpa using hqb
        have hqa : ¬((a.created_at == t) = true) := by
          simp only [beq_iff_eq]
          omega
        simp [List.filter_cons, hqb, hqa, ih]
      · simp [List.filter_cons, hqb, ih]

/-- The stable sort keeps the entries of each fixed creation time in their
original relative order. -/
theorem filter_createdAt_insertionSort (t : Int) (l : List LedgerEntry) :
    (l.insertionSort ledgerDesc).filter (fun e => e.created_at == t)
      = l.filter (fun e => e.created_at == t) := by
  induction l with
  | nil => rfl
  | cons b l ih =>
    rw [List.insertionSort, filter_createdAt_orderedInsert]
    by_cases hqb : b.created_at == t <;> simp [List.filter_cons, hqb, ih]

/-- An entry for customer 7 with id 1 at time 50. -/
def c9Entry1 : LedgerEntry :=
  { id := 1, customer_id := 7, type := .credit, amount := 5, balance := 5,
    reference_id := none, reference_type := none, description := "a",
    user_id := 1, created_at := 50 }

/-- An entry for customer 7 with id 2 at the same time 50. -/
def c9Entry2 : LedgerEntry :=
  { id := 2, customer_id := 7, type := .credit, amount := 5, balance := 10,
    reference_id := none, reference_type := none, description := "b",
    user_id := 1, created_at := 50 }

/-- C9 counterexample: two entries of the same customer share creation time
50 and arrive in id order 1, 2; the claimed id-descending tie-break would
return the id-2 entry first, but the implementation's stable sort keeps the
original order and returns the id-1 entry first. -/
theorem c9_tie_order_counterexample :
    getCustomerLedgerStatement 7 [c9Entry1, c9Entry2] = [c9Entry1, c9Entry2]
      ∧ c9Entry1.created_at = c9Entry2.created_at
      ∧ c9Entry1.id < c9Entry2.id
      ∧ c9Entry1 ≠ c9Entry2 := by
  refine ⟨?_, by norm_num [c9Entry1, c9Entry2], by norm_num [c9Entry1, c9Entry2],
    by simp [c9Entry1, c9Entry2]⟩
  norm_num [getCustomerLedgerStatement, c9Entry1, c9Entry2, List.insertionSort,
    List.orderedInsert, ledgerDesc]

/-- C9 (amended): `getCustomerLedgerStatement` returns exactly the entries
belonging to the customer, ordered by creation time descending; two entries
sharing a creation time keep their original relative order (the sort is
stable) — they are not reordered by id. -/
theorem c9_statement_sorted_and_stable (customerId : Int)
    (entries : List LedgerEntry) :
    List.Perm (getCustomerLedgerStatement customerId entries)
        (entries.filter (fun e => e.customer_id == customerId))
      ∧ List.Sorted ledgerDesc (getCustomerLedgerStatement customerId entries)
      ∧ ∀ t : Int,
          (getCustomerLedgerStatement customerId entries).filter
              (fun e => e.created_at == t)
            = (entries.filter (fun e => e.customer_id == customerId)).filter
                (fun e => e.created_at == t) :=
  ⟨List.perm_insertionSort _ _, List.sorted_insertionSort _ _,
    fun t => filter_createdAt_insertionSort t _⟩

/-- The clamped sale decrement keeps every product quantity nonnegative. -/
theorem prodInv_sellProducts (products : List Product) (items : List CartItem)
    (now : Int) (h : prodInv products) :
    prodInv (sellProducts products items now) := by
  intro q hq
  obtain ⟨p, hp, rfl⟩ := List.mem_map.mp hq
  rw [sellProduct]
  cases hfind : items.find? (fun item => item.product.id == p.id) with
  | none => exact h p hp
  | some soldItem => exact le_max_left 0 _

/-- Each single committed operation preserves nonnegativity of all product
quantities, provided stock receipts carry a positive quantity. -/
theorem prodInv_step (s : State) (op : Op) (hpos : stockInPositive op = true)
    (h : prodInv s.products) : prodInv (step s op).products := by
  cases op with
  | stockIn params now =>
    simp only [step]
    cases hf : performStockIn s.products params now with
    | error e => exact h
    | ok r =>
      cases hfind : s.products.find? (fun p => p.id == params.productId) with
      | none => rw [performStockIn, hfind] at hf; exact absurd hf (by simp)
      | some product =>
        rw [performStockIn, hfind] at hf
        have hr := Except.ok.inj hf
        subst hr
        intro q hq
        obtain ⟨p, hp, rfl⟩ := List.mem_map.mp hq
        have hq0 : (0 : ℚ) < params.quantity := of_decide_eq_true hpos
        have hprod : 0 ≤ product.quantity :=
          h product (List.mem_of_find?_eq_some hfind)
        by_cases hpid : p.id == params.productId
        · simp only [hpid, if_true]
          show (0 : ℚ) ≤ product.quantity + params.quantity
          linarith
        · simp only [hpid, Bool.false_eq_true, if_false]
          exact h p hp
  | cashSale params now inv =>
    simp only [step]
    exact prodInv_sellProducts s.products params.items now h
  | creditSale params now inv =>
    simp only [step]
    cases hk : createKhataSale params s.products s.customers s.ledger now inv with
    | error e => exact h
    | ok r =>
      cases hfind : s.customers.find? (fun c => c.id == params.customerId) with
      | none => rw [createKhataSale, hfind] at hk; exact absurd hk (by simp)
      | some cust =>
        rw [createKhataSale, hfind] at hk
        have hr := Except.ok.inj hk
        subst hr
        exact prodInv_sellProducts s.products params.items now h
  | stockOut input now =>
    simp only [step]
    cases hso : stockOut s.products input now with
    | error e => exact h
    | ok r =>
      cases hfind : s.products.find? (fun p => p.id == input.product_id) with
      | none => rw [stockOut, hfind] at hso; exact absurd hso (by simp)
      | some product =>
        rw [stockOut, hfind] at hso
        by_cases hlt : product.quantity < input.quantity
        · simp only [if_pos hlt] at hso
          exact absurd hso (by simp)
        · simp only [if_neg hlt] at hso
          have hr := Except.ok.inj hso
          subst hr
          intro q hq
          obtain ⟨p, hp, rfl⟩ := List.mem_map.mp hq
          by_cases hpid : p.id == input.product_id
          · simp only [hpid, if_true]
            show (0 : ℚ) ≤ product.quantity - input.quantity
            have := not_lt.mp hlt
            linarith
          · simp only [hpid, Bool.false_eq_true, if_false]
            exact h p hp
  | payment customerId amount userId now description =>
    simp only [step]
    cases hpay : recordKhataPayment customerId amount userId s.customers s.ledger
        now description with
    | error e => exact h
    | ok r => exact h

/-- C4: along every sequence of committed operations — stock receipts (with
the spec's positive `addedQuantity`), cash sales, credit sales, stock outs
(and payments, which do not touch products) — if every product quantity is
nonnegative before, it stays nonnegative after. -/
theorem c4_quantity_nonneg_invariant (ops : List Op) (s : State)
    (hpos : ∀ op ∈ ops, stockInPositive op = true)
    (h : prodInv s.products) : prodInv ((ops.foldl step s).products) := by
  induction ops generalizing s with
  | nil => exact h
  | cons op ops ih =>
    rw [List.foldl_cons]
    exact ih (step s op) (fun o ho => hpos o (List.mem_cons_of_mem _ ho))
      (prodInv_step s op (hpos op (List.mem_cons_self _ _)) h)

/-- A product with two units, the sole product of the C4 witness state. -/
def c4Product : Product :=
  { id := 1, cost_price := 3, selling_price := 10, quantity := 2,
    min_stock_level := 2, wac_cost := 3, is_active := true, updated_at := 0 }

/-- Concrete starting state for the C4 witness: one product with two units. -/
def c4State : State :=
  { products := [c4Product], customers := [], ledger := [] }

/-- Stock receipt of five units used by the C4 witness. -/
def c4InParams : StockInParams :=
  { productId := 1, quantity := 5, unitCost := 100, supplierId := none,
    userId := 1, notes := none }

/-- Stock-out of three units used by the C4 witness. -/
def c4OutInput : StockOutInput :=
  { product_id := 1, quantity := 3, type := .sale, reference_id := none,
    reference_type := none, user_id := 1, notes := none }

/-- Concrete operation sequence for the C4 witness: receive five units, then
take three out. -/
def c4Ops : List Op :=
  [.stockIn c4InParams 10, .stockOut c4OutInput 20]

/-- Witness for C4 at the concrete sequence. -/
theorem c4_witness :
    (∀ op ∈ c4Ops, stockInPositive op = true)
      ∧ prodInv c4State.products
      ∧ prodInv ((c4Ops.foldl step c4State).products) := by
  have h1 : ∀ op ∈ c4Ops, stockInPositive op = true := by
    intro op hop
    simp only [c4Ops, List.mem_cons, List.not_mem_nil, or_false] at hop
    rcases hop with rfl | rfl
    · simp [stockInPositive, c4InParams]
    · simp [stockInPositive]
  have h2 : prodInv c4State.products := by
    intro p hp
    simp only [c4State, List.mem_singleton] at hp
    subst hp
    norm_num [c4Product]
  exact ⟨h1, h2, c4_quantity_nonneg_invariant c4Ops c4State h1 h2⟩

/-- Appending an entry of another customer does not change a customer's
ledger view; appending an entry of the same customer makes it the most
recent one. -/
theorem getLast_filter_append (l : List LedgerEntry) (e : LedgerEntry)
    (cid : Int) :
    ((l ++ [e]).filter (fun x => x.customer_id == cid)).getLast?
      = if e.customer_id == cid
          then some e
          else (l.filter (fun x => x.customer_id == cid)).getLast? := by
  rw [List.filter_append]
  by_cases hbeq : e.customer_id == cid
  · simp only [hbeq, if_true, List.filter_cons, List.filter_nil]
    exact List.getLast?_concat _
  · simp only [hbeq, Bool.false_eq_true, if_false, List.filter_cons, List.filter_nil,
      List.append_nil]

/-- Each single committed operation preserves the standing balance invariant:
every customer's stored balance equals the running balance of the customer's
most recently appended ledger entry (0 when there is none). -/
theorem ledgerInv_step (s : State) (op : Op) (h : ledgerInv s) :
    ledgerInv (step s op) := by
  cases op with
  | stockIn params now =>
    simp only [step]
    cases hf : performStockIn s.products params now with
    | error e => exact h
    | ok r => exact h
  | cashSale params now inv => exact h
  | creditSale params now inv =>
    simp only [step]
    cases hk : createKhataSale params s.products s.customers s.ledger now inv with
    | error e => exact h
    | ok r =>
      cases hfind : s.customers.find? (fun c => c.id == params.customerId) with
      | none => rw [createKhataSale, hfind] at hk; exact absurd hk (by simp)
      | some cust =>
        rw [createKhataSale, hfind] at hk
        have hr := Except.ok.inj hk
        subst hr
        intro c' hc'
        obtain ⟨c, hc, rfl⟩ := List.mem_map.mp hc'
        by_cases hbeq : (c.id == params.customerId) = true
        · have hsym : (params.customerId == c.id) = true := by
            rw [beq_iff_eq] at hbeq ⊢
            exact hbeq.symm
          simp only [ledgerInv, hbeq, if_true, getLast_filter_append, hsym,
            Option.map_some', Option.getD_some]
        · have hfalse : (c.id == params.customerId) = false := by
            simpa using hbeq
          have hsymf : (params.customerId == c.id) = false := by
            rw [beq_eq_false_iff_ne] at hfalse ⊢
            exact fun hcontra => hfalse hcontra.symm
          simp only [ledgerInv, hfalse, Bool.false_eq_true, if_false,
            getLast_filter_append, hsymf]
          exact h c hc
  | stockOut input now =>
    simp only [step]
    cases hso : stockOut s.products input now with
    | error e => exact h
    | ok r => exact h
  | payment customerId amount userId now description =>
    simp only [step]
    cases hpay : recordKhataPayment customerId amount userId s.customers s.ledger
        now description with
    | error e => exact h
    | ok r =>
      cases hfind : s.customers.find? (fun c => c.id == customerId) with
      | none => rw [recordKhataPayment, hfind] at hpay; exact absurd hpay (by simp)
      | some cust =>
        rw [recordKhataPayment, hfind] at hpay
        have hr := Except.ok.inj hpay
        subst hr
        intro c' hc'
        obtain ⟨c, hc, rfl⟩ := List.mem_map.mp hc'
        by_cases hbeq : (c.id == customerId) = true
        · have hsym : (customerId == c.id) = true := by
            rw [beq_iff_eq] at hbeq ⊢
            exact hbeq.symm
          simp only [ledgerInv, hbeq, if_true, getLast_filter_append, hsym,
            Option.map_some', Option.getD_some]
        · have hfalse : (c.id == customerId) = false := by
            simpa using hbeq
          have hsymf : (customerId == c.id) = false := by
            rw [beq_eq_false_iff_ne] at hfalse ⊢
            exact fun hcontra => hfalse hcontra.symm
          simp only [ledgerInv, hfalse, Bool.false_eq_true, if_false,
            getLast_filter_append, hsymf]
          exact h c hc

/-- C5: along every sequence of committed operations (in particular credit
sales and payments; the others touch neither customers nor ledger), every
customer's stored `credit_balance` stays equal to the `balance` of that
customer's most recently appended ledger entry, or 0 if the customer has
none. -/
theorem c5_balance_matches_last_entry (ops : List Op) (s : State)
    (h : ledgerInv s) : ledgerInv (ops.foldl step s) := by
  induction ops generalizing s with
  | nil => exact h
  | cons op ops ih =>
    rw [List.foldl_cons]
    exact ih (step s op) (ledgerInv_step s op h)

/-- Concrete starting state for the C5 witness: one customer with zero
balance and an empty ledger. -/
def c5State : State :=
  { products := [c3Product], customers := [c3Customer], ledger := [] }

/-- Concrete operation sequence for the C5 witness: one credit sale followed
by one payment. -/
def c5Ops : List Op :=
  [.creditSale c3Params 100 "INV-5", .payment 7 40 1 200 none]

/-- Witness for C5 at the concrete sequence. -/
theorem c5_witness : ledgerInv c5State ∧ ledgerInv (c5Ops.foldl step c5State) := by
  have h0 : ledgerInv c5State := by
    intro c hc
    simp only [c5State, List.mem_singleton] at hc
    subst hc
    simp [c3Customer, c5State]
  exact ⟨h0, c5_balance_matches_last_entry c5Ops c5State h0⟩

end RetailCore
